import Mathlib

/-!
Verification of the Teleport cloud-resource discovery service
(`lib/srv/discovery/discovery.go`).

The Go source is shallowly embedded: pure helpers become Lean functions,
the stateful handlers become explicit state-passing functions, the event
loops become folds over event lists, and calls into external collaborators
(cloud clients, the installer, the usage-event sink, the watch
subscription) are parameters describing the collaborator's observable
behaviour.  Times are natural numbers (Go's zero time is `0`, `After` is
strict `>`).
-/

namespace Discovery

/-! ## Matchers and `splitMatchers` -/

/-- A matcher, as used by `splitMatchers`.  `types` embeds the `Types`
field returned by `GetTypes`; `fields` stands for every other field of
the concrete matcher (regions, tags, assume-role, ...), which
`CopyWithTypes` copies verbatim (modelled from the spec: the concrete
`CopyWithTypes` implementations live in the external `api/types`
package). -/
structure Matcher where
  types : List String
  fields : Nat
  deriving DecidableEq, Repr

/-- `GetTypes` of the matcher interface. -/
def Matcher.getTypes (m : Matcher) : List String := m.types

/-- `CopyWithTypes` of the matcher interface: replace `Types`, copy all
other fields verbatim. -/
def Matcher.copyWithTypes (m : Matcher) (ts : List String) : Matcher :=
  { m with types := ts }

/-- `splitSlice` splits a slice into two, by putting all elements that
satisfy the provided check function in the first slice, while putting
all other elements in the second slice. -/
def splitSlice (ss : List String) (check : String → Bool) : List String × List String :=
  match ss with
  | [] => ([], [])
  | e :: rest =>
    let (split, other) := splitSlice rest check
    if check e then (e :: split, other) else (split, e :: other)

/-- `splitMatchers` splits a set of matchers by checking the matcher
type. -/
def splitMatchers (matchers : List Matcher) (matcherTypeCheck : String → Bool) :
    List Matcher × List Matcher :=
  match matchers with
  | [] => ([], [])
  | matcher :: rest =>
    let (split, other) := splitMatchers rest matcherTypeCheck
    let (splitTypes, otherTypes) := splitSlice matcher.getTypes matcherTypeCheck
    let split' := if splitTypes.length > 0 then
      matcher.copyWithTypes splitTypes :: split else split
    let other' := if otherTypes.length > 0 then
      matcher.copyWithTypes otherTypes :: other else other
    (split', other')

/-! ## Nodes and label matching -/

/-- `types.AWSAccountIDLabel`. -/
def awsAccountIDLabel : String := "teleport.dev/account-id"

/-- `types.AWSInstanceIDLabel`. -/
def awsInstanceIDLabel : String := "teleport.dev/instance-id"

/-- `types.SubscriptionIDLabel`. -/
def subscriptionIDLabel : String := "teleport.dev/subscription-id"

/-- `types.VMIDLabel`. -/
def vmIDLabel : String := "teleport.dev/vm-id"

/-- `types.ProjectIDLabel`. -/
def projectIDLabel : String := "teleport.dev/project-id"

/-- `types.ZoneLabel`. -/
def zoneLabel : String := "teleport.dev/zone"

/-- `types.SubKindOpenSSHNode`. -/
def subKindOpenSSHNode : String := "openssh"

/-- A node of the resource inventory (`types.Server` seen through
`services.Node`): its labels, its sub-kind and its rotation
`LastRotated` timestamp. -/
structure Node where
  labels : List (String × String)
  subKind : String
  lastRotated : Nat
  deriving DecidableEq, Repr

/-- `GetAllLabels` / `GetLabel`: look a label up on a node. -/
def Node.getLabel (n : Node) (k : String) : Option String :=
  n.labels.lookup k

/-- Whether a node carries a label with the given key. -/
def Node.hasLabel (n : Node) (k : String) : Bool :=
  (n.getLabel k).isSome

/-- `types.MatchLabels(node, want)` — modelled from the spec: the node
matches when every wanted key/value pair appears among its labels
(the concrete implementation lives in the external `api/types`
package; the spec's identity-matching contract is exactly this). -/
def matchLabels (n : Node) (want : List (String × String)) : Bool :=
  want.all fun kv => n.getLabel kv.1 == some kv.2

/-! ## EC2 batches, filtering, and `handleEC2Instances` -/

/-- `server.EC2Instance`, reduced to the field the discovery core
inspects. -/
structure EC2Instance where
  instanceID : String
  deriving DecidableEq, Repr

/-- `server.EC2Instances`: one discovered-instance batch. -/
structure EC2Instances where
  accountID : String
  region : String
  documentName : String
  parameters : List String
  instances : List EC2Instance
  rotation : Bool
  deriving DecidableEq, Repr

/-- Whether some inventory node carries exactly the batch's AWS
account-ID label and the instance's instance-ID label (the inner loop
of `filterExistingEC2Nodes`). -/
def ec2NodeMatches (nodes : List Node) (accountID instanceID : String) : Bool :=
  nodes.any fun node =>
    matchLabels node [(awsAccountIDLabel, accountID), (awsInstanceIDLabel, instanceID)]

/-- `filterExistingEC2Nodes`: drop from the batch every instance whose
AWS account ID plus instance ID already matches a known node.  The
node watcher first restricts the inventory to nodes carrying both
labels. -/
def filterExistingEC2Nodes (allNodes : List Node) (instances : EC2Instances) :
    EC2Instances :=
  let nodes := allNodes.filter fun n =>
    n.hasLabel awsAccountIDLabel && n.hasLabel awsInstanceIDLabel
  { instances with
    instances := instances.instances.filter fun inst =>
      !(ec2NodeMatches nodes instances.accountID inst.instanceID) }

/-- `server.SSMRunRequest`, the request handed to the SSM installer's
`Run`. -/
structure SSMRunRequest where
  documentName : String
  instances : List EC2Instance
  params : List String
  region : String
  accountID : String
  deriving DecidableEq, Repr

/-- The errors `handleEC2Instances` (and its Azure/GCP counterparts)
can return: `notFound` is the `trace.NotFound` sentinel, `noInstances`
is the `errNoInstances` sentinel, the rest are real failures. -/
inductive HandleErr where
  | notFound (msg : String)
  | noInstances
  | clientErr (msg : String)
  | installerErr (msg : String)
  deriving DecidableEq, Repr

/-- Observable outcome of one handler invocation: the installer `Run`
request if the installer was invoked, the usage-event names handed to
`emitUsageEvents`, and the returned error, if any. -/
structure HandleResult (Req : Type) where
  run : Option Req
  usage : List String
  err : Option HandleErr
  deriving DecidableEq, Repr

/-- Behaviour of the external collaborators one EC2 handler call
touches: the SSM client lookup, `instances.ServerInfos()`, and the
installer's `Run`. -/
structure EC2Ext where
  ssmClientErr : Option String
  serverInfosErr : Option String
  installerErr : Option String
  deriving DecidableEq, Repr

/-- All collaborators succeed. -/
def EC2Ext.ok : EC2Ext := ⟨none, none, none⟩

/-- `instances.MakeEvents()` — modelled from the spec: one usage-event
name per discovered resource identity (the concrete implementation
lives in the external `lib/srv/server` package). -/
def makeEC2Events (instances : EC2Instances) : List String :=
  instances.instances.map fun i => instances.accountID ++ "/" ++ i.instanceID

/-- The `server.SSMRunRequest` literal built inside
`handleEC2Instances`. -/
def mkSSMRunRequest (instances : EC2Instances) : SSMRunRequest :=
  { documentName := instances.documentName
    instances := instances.instances
    params := instances.parameters
    region := instances.region
    accountID := instances.accountID }

/-- `handleEC2Instances`: fetch the SSM client, queue server infos,
filter the batch against the inventory unless it is a rotation
re-push, report `NotFound` on an empty filtered batch, otherwise
invoke the installer and on success emit usage events. -/
def handleEC2Instances (ext : EC2Ext) (nodes : List Node)
    (instances : EC2Instances) : HandleResult SSMRunRequest :=
  match ext.ssmClientErr with
  | some e => ⟨none, [], some (.clientErr e)⟩
  | none =>
  match ext.serverInfosErr with
  | some e => ⟨none, [], some (.clientErr e)⟩
  | none =>
    let instances :=
      if !instances.rotation then filterExistingEC2Nodes nodes instances
      else instances
    if instances.instances.isEmpty then
      ⟨none, [], some (.notFound "all fetched nodes already enrolled")⟩
    else
      let req := mkSSMRunRequest instances
      match ext.installerErr with
      | some e => ⟨some req, [], some (.installerErr e)⟩
      | none => ⟨some req, makeEC2Events instances, none⟩

/-- The EC2 discovery loop body applied to a sequence of batches
against a fixed inventory (`handleEC2Discovery` logs any error and
keeps consuming, so every batch is processed). -/
def ec2DiscoveryLoop (ext : EC2Ext) (nodes : List Node)
    (batches : List EC2Instances) : List (HandleResult SSMRunRequest) :=
  batches.map (handleEC2Instances ext nodes)

/-- The installer `Run` invocations issued over a sequence of batches
against a fixed (static) inventory. -/
def ec2RunsStatic (ext : EC2Ext) (nodes : List Node)
    (batches : List EC2Instances) : List SSMRunRequest :=
  (ec2DiscoveryLoop ext nodes batches).filterMap (fun r => r.run)

/-- Whether a `Run` request targets the given instance identity
(AWS account ID plus instance ID). -/
def runContainsEC2 (req : SSMRunRequest) (accountID instanceID : String) : Bool :=
  req.accountID == accountID && req.instances.any (fun i => i.instanceID == instanceID)

/-- The inventory nodes that a successful installer run enrolls: one
OpenSSH node per installed instance, labelled with the batch's AWS
account ID and the instance's ID. -/
def enrollNodes (req : SSMRunRequest) : List Node :=
  req.instances.map fun i =>
    { labels := [(awsAccountIDLabel, req.accountID), (awsInstanceIDLabel, i.instanceID)]
      subKind := subKindOpenSSHNode
      lastRotated := 0 }

/-- The installer `Run` invocations issued over a sequence of batches
when the inventory records each successfully enrolled instance before
the next batch arrives. -/
def ec2RunsEnrolling (ext : EC2Ext) (nodes : List Node) :
    List EC2Instances → List SSMRunRequest
  | [] => []
  | b :: rest =>
    match (handleEC2Instances ext nodes b).run with
    | none => ec2RunsEnrolling ext nodes rest
    | some req => req :: ec2RunsEnrolling ext (nodes ++ enrollNodes req) rest

/-! ## Azure and GCP batches and handlers -/

/-- `types.NameLabel`. -/
def nameLabel : String := "teleport.dev/name"

/-- Behaviour of the external collaborators an Azure/GCP handler call
touches: the run-command/instances client and the installer's `Run`. -/
structure VMExt where
  clientErr : Option String
  installerErr : Option String
  deriving DecidableEq, Repr

/-- All collaborators succeed. -/
def VMExt.ok : VMExt := ⟨none, none⟩

/-- An Azure virtual machine (`armcompute.VirtualMachine`), reduced to
the fields the discovery core inspects.  `vmID` is
`Properties.VMID`; `none` models a nil `Properties`, which the filter
reads as the empty string via `aws.StringValue`. -/
structure AzureVM where
  name : String
  vmID : Option String
  deriving DecidableEq, Repr

/-- `server.AzureInstances`: one discovered Azure batch. -/
structure AzureInstances where
  subscriptionID : String
  region : String
  resourceGroup : String
  scriptName : String
  publicProxyAddr : String
  clientID : String
  parameters : List String
  instances : List AzureVM
  deriving DecidableEq, Repr

/-- `filterExistingAzureNodes`: drop every VM whose subscription ID
plus VM ID already matches a known node. -/
def filterExistingAzureNodes (allNodes : List Node) (instances : AzureInstances) :
    AzureInstances :=
  let nodes := allNodes.filter fun n =>
    n.hasLabel subscriptionIDLabel && n.hasLabel vmIDLabel
  { instances with
    instances := instances.instances.filter fun inst =>
      let vmID := inst.vmID.getD ""
      !(nodes.any fun node =>
        matchLabels node [(subscriptionIDLabel, instances.subscriptionID), (vmIDLabel, vmID)]) }

/-- `server.AzureRunRequest`. -/
structure AzureRunRequest where
  instances : List AzureVM
  region : String
  resourceGroup : String
  params : List String
  scriptName : String
  publicProxyAddr : String
  clientID : String
  deriving DecidableEq, Repr

/-- `instances.MakeEvents()` for Azure — modelled from the spec: one
usage-event name per discovered resource identity. -/
def makeAzureEvents (instances : AzureInstances) : List String :=
  instances.instances.map fun i =>
    instances.subscriptionID ++ "/" ++ i.vmID.getD ""

/-- `handleAzureInstances`: fetch the run-command client, filter
against the inventory, report the `errNoInstances` sentinel on an
empty filtered batch, otherwise invoke the installer and on success
emit usage events. -/
def handleAzureInstances (ext : VMExt) (nodes : List Node)
    (instances : AzureInstances) : HandleResult AzureRunRequest :=
  match ext.clientErr with
  | some e => ⟨none, [], some (.clientErr e)⟩
  | none =>
    let instances := filterExistingAzureNodes nodes instances
    if instances.instances.isEmpty then
      ⟨none, [], some .noInstances⟩
    else
      let req : AzureRunRequest :=
        { instances := instances.instances
          region := instances.region
          resourceGroup := instances.resourceGroup
          params := instances.parameters
          scriptName := instances.scriptName
          publicProxyAddr := instances.publicProxyAddr
          clientID := instances.clientID }
      match ext.installerErr with
      | some e => ⟨some req, [], some (.installerErr e)⟩
      | none => ⟨some req, makeAzureEvents instances, none⟩

/-- A GCP virtual machine (`gcp.Instance`), reduced to the fields the
discovery core inspects. -/
structure GCPVM where
  name : String
  zone : String
  projectID : String
  deriving DecidableEq, Repr

/-- `server.GCPInstances`: one discovered GCP batch. -/
structure GCPInstances where
  projectID : String
  zone : String
  scriptName : String
  publicProxyAddr : String
  parameters : List String
  instances : List GCPVM
  deriving DecidableEq, Repr

/-- `filterExistingGCPNodes`: drop every VM whose project ID, zone and
name already match a known node. -/
def filterExistingGCPNodes (allNodes : List Node) (instances : GCPInstances) :
    GCPInstances :=
  let nodes := allNodes.filter fun n =>
    n.hasLabel projectIDLabel && n.hasLabel zoneLabel && n.hasLabel nameLabel
  { instances with
    instances := instances.instances.filter fun inst =>
      !(nodes.any fun node =>
        matchLabels node
          [(projectIDLabel, inst.projectID), (zoneLabel, inst.zone), (nameLabel, inst.name)]) }

/-- `server.GCPRunRequest`. -/
structure GCPRunRequest where
  instances : List GCPVM
  projectID : String
  zone : String
  params : List String
  scriptName : String
  publicProxyAddr : String
  deriving DecidableEq, Repr

/-- `instances.MakeEvents()` for GCP — modelled from the spec: one
usage-event name per discovered resource identity. -/
def makeGCPEvents (instances : GCPInstances) : List String :=
  instances.instances.map fun i =>
    i.projectID ++ "/" ++ i.zone ++ "/" ++ i.name

/-- `handleGCPInstances`: fetch the instances client, filter against
the inventory, report the `errNoInstances` sentinel on an empty
filtered batch, otherwise invoke the installer and on success emit
usage events. -/
def handleGCPInstances (ext : VMExt) (nodes : List Node)
    (instances : GCPInstances) : HandleResult GCPRunRequest :=
  match ext.clientErr with
  | some e => ⟨none, [], some (.clientErr e)⟩
  | none =>
    let instances := filterExistingGCPNodes nodes instances
    if instances.instances.isEmpty then
      ⟨none, [], some .noInstances⟩
    else
      let req : GCPRunRequest :=
        { instances := instances.instances
          projectID := instances.projectID
          zone := instances.zone
          params := instances.parameters
          scriptName := instances.scriptName
          publicProxyAddr := instances.publicProxyAddr }
      match ext.installerErr with
      | some e => ⟨some req, [], some (.installerErr e)⟩
      | none => ⟨some req, makeGCPEvents instances, none⟩

/-- The Azure discovery loop body applied to a sequence of batches
(the loop logs any error and keeps consuming). -/
def azureDiscoveryLoop (ext : VMExt) (nodes : List Node)
    (batches : List AzureInstances) : List (HandleResult AzureRunRequest) :=
  batches.map (handleAzureInstances ext nodes)

/-- The GCP discovery loop body applied to a sequence of batches
(the loop logs any error and keeps consuming). -/
def gcpDiscoveryLoop (ext : VMExt) (nodes : List Node)
    (batches : List GCPInstances) : List (HandleResult GCPRunRequest) :=
  batches.map (handleGCPInstances ext nodes)

/-! ## Error classification in the consuming loops -/

/-- Log level used when a handler error reaches its discovery loop. -/
inductive LogLevel where
  | debug
  | errorLog
  deriving DecidableEq, Repr

/-- `logHandleInstancesErr` (EC2 loop): a `trace.NotFound` error is
logged at debug level ("All discovered EC2 instances are already part
of the cluster."); everything else at error level. -/
def classifyEC2HandleErr : HandleErr → LogLevel
  | .notFound _ => .debug
  | _ => .errorLog

/-- The Azure/GCP loops: an error matching the `errNoInstances`
sentinel is logged at debug level; everything else at error level. -/
def classifyVMHandleErr : HandleErr → LogLevel
  | .noInstances => .debug
  | _ => .errorLog

/-! ## Usage-event emission (`emitUsageEvents`) -/

/-- Result of one `emitUsageEvents` call: the usage-event cache after
the call, the names submitted to the sink (in order), and whether the
call returned a sink error.  The event payloads riding along in the
map are passed to the sink unchanged and never influence control
flow, so only the names are modelled. -/
structure EmitResult where
  cache : List String
  calls : List String
  errored : Bool
  deriving DecidableEq, Repr

/-- `emitUsageEvents`: under the mutex, walk the batch; skip names
already in the cache, record each fresh name in the cache, then call
`SubmitUsageEvent`, returning immediately if the sink errors.
`sinkErr` tells which names the sink rejects. -/
def emitUsageEvents (sinkErr : String → Bool) (cache : List String) :
    List String → EmitResult
  | [] => ⟨cache, [], false⟩
  | name :: rest =>
    if name ∈ cache then emitUsageEvents sinkErr cache rest
    else if sinkErr name then ⟨name :: cache, [name], true⟩
    else
      let r := emitUsageEvents sinkErr (name :: cache) rest
      ⟨r.cache, name :: r.calls, r.errored⟩

/-- A whole process lifetime of `emitUsageEvents` calls threading the
cache: returns the final cache and every sink call made, in order. -/
def emitLifetime (sinkErr : String → Bool) (cache : List String) :
    List (List String) → List String × List String
  | [] => (cache, [])
  | evs :: rest =>
    let r := emitUsageEvents sinkErr cache evs
    let p := emitLifetime sinkErr r.cache rest
    (p.1, r.calls ++ p.2)

/-! ## CA rotation (`getMostRecentRotationForCAs`, `findUnrotatedEC2Nodes`) -/

/-- `types.RotationState`, reduced to the states the code compares. -/
inductive RotationState where
  | inProgress
  | standby
  deriving DecidableEq, Repr

/-- The rotation block of a certificate authority. -/
structure Rotation where
  state : RotationState
  started : Nat
  lastRotated : Nat
  deriving DecidableEq, Repr

/-- A certificate authority as seen by the rotation watcher. -/
structure CertAuthority where
  rotation : Rotation
  deriving DecidableEq, Repr

/-- `getMostRecentRotationForCAs`: fold over the given CAs, taking the
rotation `Started` timestamp when a rotation is in progress and the
`LastRotated` timestamp, keeping the latest (`time.After` is strict
`>`; the Go zero time is `0`). -/
def getMostRecentRotationForCAs (cas : List CertAuthority) : Nat :=
  cas.foldl (fun mostRecentUpdate ca =>
    let caRot := ca.rotation
    let m1 := if caRot.state = RotationState.inProgress ∧ caRot.started > mostRecentUpdate
      then caRot.started else mostRecentUpdate
    if caRot.lastRotated > m1 then caRot.lastRotated else m1) 0

/-- The candidate timestamps of one CA: `Started` when a rotation is
in progress, and `LastRotated`. -/
def rotationCandidates (ca : CertAuthority) : List Nat :=
  (if ca.rotation.state = RotationState.inProgress then [ca.rotation.started] else [])
    ++ [ca.rotation.lastRotated]

/-- The node predicate of `findUnrotatedEC2Nodes`: an OpenSSH node
carrying both AWS identity labels whose recorded last-rotated
timestamp strictly precedes the most recent CA rotation. -/
def unrotatedPred (mostRecentCertRotation : Nat) (n : Node) : Bool :=
  n.subKind == subKindOpenSSHNode
    && n.hasLabel awsAccountIDLabel
    && n.hasLabel awsInstanceIDLabel
    && decide (mostRecentCertRotation > n.lastRotated)

/-- `findUnrotatedEC2Nodes`: compute the most recent rotation of the
OpenSSH and Host CAs, filter the inventory by `unrotatedPred`, and
report `NotFound` when no node qualifies. -/
def findUnrotatedEC2Nodes (openSSHCA hostCA : CertAuthority) (nodes : List Node) :
    Except HandleErr (List Node) :=
  let mostRecentCertRotation := getMostRecentRotationForCAs [openSSHCA, hostCA]
  let found := nodes.filter (unrotatedPred mostRecentCertRotation)
  if found.isEmpty then .error (.notFound "no unrotated nodes found")
  else .ok found

/-- What one `watchCARotation` tick does with the result: push the
batch, log a debug no-op on `NotFound`, or log an error. -/
inductive TickOutcome where
  | pushed (nodes : List Node)
  | noopDebug
  | errLogged
  deriving DecidableEq, Repr

/-- One tick of `watchCARotation`. -/
def caRotationTick (openSSHCA hostCA : CertAuthority) (nodes : List Node) :
    TickOutcome :=
  match findUnrotatedEC2Nodes openSSHCA hostCA nodes with
  | .ok found => .pushed found
  | .error (.notFound _) => .noopDebug
  | .error _ => .errLogged

/-! ## Matchers, database fetchers, and the dynamic matcher loop -/

/-- The `Matchers` struct of the discovery service: all matchers, per
provider. -/
structure Matchers where
  aws : List Matcher
  azure : List Matcher
  gcp : List Matcher
  kubernetes : List Matcher
  deriving DecidableEq, Repr

/-- `Matchers.IsEmpty`. -/
def Matchers.isEmpty (m : Matchers) : Bool :=
  m.gcp.length == 0 && m.aws.length == 0 && m.azure.length == 0 && m.kubernetes.length == 0

/-- A database fetcher, tagged by the provider family that built it
(the concrete fetchers are external; only their identity matters
here). -/
inductive DBFetcher where
  | aws (m : Matcher)
  | azure (m : Matcher)
  deriving DecidableEq, Repr

/-- The type predicates `db.IsAWSMatcherType` and
`db.IsAzureMatcherType` live in the external `fetchers/db` package;
they are passed in as parameters. -/
structure DBTypePreds where
  isAWSMatcherType : String → Bool
  isAzureMatcherType : String → Bool

/-- `databaseFetchersFromMatchers`: split the AWS and Azure matchers by
the database type predicates and build one fetcher per surviving
matcher (`db.MakeAWSFetchers` / `db.MakeAzureFetchers` are external;
modelled from the spec as materializing fetchers for each database
matcher).  There are no database matchers for GCP or Kubernetes. -/
def databaseFetchersFromMatchers (p : DBTypePreds) (matchers : Matchers) :
    List DBFetcher :=
  (splitMatchers matchers.aws p.isAWSMatcherType).1.map DBFetcher.aws
    ++ (splitMatchers matchers.azure p.isAzureMatcherType).1.map DBFetcher.azure

/-- A `discoveryconfig.DiscoveryConfig`: its name, its discovery group,
and its embedded matcher set (`Spec.AWS/Azure/GCP/Kube`). -/
structure DiscoveryConfig where
  name : String
  discoveryGroup : String
  aws : List Matcher
  azure : List Matcher
  gcp : List Matcher
  kube : List Matcher
  deriving DecidableEq, Repr

/-- The matcher set embedded in a discovery config. -/
def DiscoveryConfig.matchers (dc : DiscoveryConfig) : Matchers :=
  ⟨dc.aws, dc.azure, dc.gcp, dc.kube⟩

/-- A watch-event resource: either a `DiscoveryConfig` or some other
resource type (whose type assertion to `*DiscoveryConfig` fails). -/
inductive Resource where
  | discoveryConfig (dc : DiscoveryConfig)
  | otherResource (name : String)
  deriving DecidableEq, Repr

/-- `Resource.GetName()`. -/
def Resource.name : Resource → String
  | .discoveryConfig dc => dc.name
  | .otherResource n => n

/-- `types.OpType` values the loop can see. -/
inductive EventType where
  | opInit
  | opPut
  | opDelete
  | opOther (code : Nat)
  deriving DecidableEq, Repr

/-- A watch event. -/
structure Event where
  type : EventType
  resource : Resource
  deriving DecidableEq, Repr

/-- The dynamic fetcher table `map[ConfigName][]Fetcher`, as an
association list with unique keys. -/
abbrev FetcherTable := List (String × List DBFetcher)

/-- Map lookup. -/
def tableGet (t : FetcherTable) (k : String) : Option (List DBFetcher) :=
  t.lookup k

/-- Map assignment `t[k] = v`. -/
def tableInsert (t : FetcherTable) (k : String) (v : List DBFetcher) :
    FetcherTable :=
  (t.filter fun kv => kv.1 != k) ++ [(k, v)]

/-- Map deletion `delete(t, k)`. -/
def tableDelete (t : FetcherTable) (k : String) : FetcherTable :=
  t.filter fun kv => kv.1 != k

/-- `upsertDynamicMatchers`: rebuild the database fetchers from the
config's embedded matcher set and replace the per-config entry. -/
def upsertDynamicMatchers (p : DBTypePreds) (table : FetcherTable)
    (dc : DiscoveryConfig) : FetcherTable :=
  tableInsert table dc.name (databaseFetchersFromMatchers p dc.matchers)

/-- One iteration of the event loop of `startDynamicWatcherUpdater`:
`none` means the goroutine returned (stopping the loop for good);
`some t` is the table after the event. -/
def handleDynamicEvent (p : DBTypePreds) (group : String)
    (table : FetcherTable) (event : Event) : Option FetcherTable :=
  match event.type with
  | .opPut =>
    match event.resource with
    | .discoveryConfig dc =>
      if dc.discoveryGroup != group then
        some (tableDelete table event.resource.name)
      else
        some (upsertDynamicMatchers p table dc)
    | .otherResource _ => none
  | .opDelete => some (tableDelete table event.resource.name)
  | _ => some table

/-- The event loop of `startDynamicWatcherUpdater` over a finite event
sequence: once an iteration returns, no later event is processed and
the table is frozen. -/
def runDynamicLoop (p : DBTypePreds) (group : String)
    (table : FetcherTable) : List Event → FetcherTable
  | [] => table
  | event :: rest =>
    match handleDynamicEvent p group table event with
    | none => table
    | some t => runDynamicLoop p group t rest

/-! ## Configuration validation and `New` -/

/-- Errors surfaced by construction: `badParameter` is a configuration
error (`trace.BadParameter`), `external` an error from an external
collaborator. -/
inductive DiscErr where
  | badParameter (msg : String)
  | external (msg : String)
  deriving DecidableEq, Repr

/-- The `Config` of the discovery server; the collaborator fields are
reduced to whether they are set. -/
structure Config where
  matchers : Matchers
  discoveryGroup : String
  emitterSet : Bool
  accessPointSet : Bool
  cloudClientsSet : Bool
  kubernetesClientSet : Bool
  pollInterval : Nat
  deriving DecidableEq, Repr

/-- The first select on the freshly opened subscription inside
`startDynamicMatchersWatcher`: either an event arrives first, or the
watcher's done channel fires first carrying the watcher's error. -/
inductive SubFirst where
  | firstEvent (event : Event)
  | doneFirst (err : DiscErr)
  deriving DecidableEq, Repr

/-- Outcome of `AccessPoint.NewWatcher`: it either fails outright or
opens a subscription that then delivers `SubFirst`. -/
inductive WatcherStart where
  | failed (err : DiscErr)
  | opened (first : SubFirst)
  deriving DecidableEq, Repr

/-- Behaviour of the external collaborators `New` touches, in call
order: `cloud.NewClients`, the Kubernetes client construction,
`AccessPoint.NewWatcher` plus the first thing the subscription
delivers, and the remaining fetcher/watcher initialization steps. -/
structure NewExt where
  newCloudClientsErr : Option String
  newKubeClientErr : Option String
  newWatcher : WatcherStart
  initRestErr : Option DiscErr
  deriving DecidableEq, Repr

/-- `Config.CheckAndSetDefaults`, in source order: reject an empty
matcher set with no discovery group, a missing emitter, a missing
access point, and Kubernetes matchers without a discovery group; then
fill in the cloud and Kubernetes clients and the poll interval. -/
def checkAndSetDefaults (ext : NewExt) (c : Config) : Except DiscErr Config :=
  if c.matchers.isEmpty ∧ c.discoveryGroup = "" then
    .error (.badParameter "no matchers or discovery group configured for discovery")
  else if !c.emitterSet then
    .error (.badParameter "no Emitter configured for discovery")
  else if !c.accessPointSet then
    .error (.badParameter "no AccessPoint configured for discovery")
  else if c.matchers.kubernetes.length > 0 ∧ c.discoveryGroup = "" then
    .error (.badParameter "the DiscoveryGroup name should be set for discovery server if kubernetes matchers are present.")
  else
    match (if !c.cloudClientsSet then ext.newCloudClientsErr else none) with
    | some e => .error (.external e)
    | none =>
      match (if !c.kubernetesClientSet ∧ c.matchers.kubernetes.length > 0
          then ext.newKubeClientErr else none) with
      | some e => .error (.external e)
      | none =>
        .ok { c with
          cloudClientsSet := true
          kubernetesClientSet := c.kubernetesClientSet || c.matchers.kubernetes.length > 0
          pollInterval := if c.pollInterval = 0 then 300 else c.pollInterval }

/-- `startDynamicMatchersWatcher`: with no discovery group, do nothing;
otherwise open the watcher, block until the first event, require it
to be `OpInit`, and surface the watcher's error if the done channel
fires first.  Returns whether a subscription was opened. -/
def startDynamicMatchersWatcher (ext : NewExt) (group : String) :
    Except DiscErr Bool :=
  if group = "" then .ok false
  else
    match ext.newWatcher with
    | .failed e => .error e
    | .opened (.doneFirst e) => .error e
    | .opened (.firstEvent event) =>
      if event.type = EventType.opInit then .ok true
      else .error (.badParameter "failed to watch for DiscoveryConfig: received an unexpected event while waiting for the initial OpInit")

/-- The constructed discovery server, reduced to the state the claims
inspect. -/
structure Server where
  config : Config
  subscriptionOpen : Bool
  usageEventCache : List String
  dynamicDatabaseFetchers : FetcherTable
  deriving DecidableEq

/-- `New`: validate the configuration, start the dynamic matchers
watcher, then run the remaining fetcher and watcher initialization
steps. -/
def new (ext : NewExt) (cfg : Config) : Except DiscErr Server :=
  match checkAndSetDefaults ext cfg with
  | .error e => .error e
  | .ok cfg' =>
    match startDynamicMatchersWatcher ext cfg'.discoveryGroup with
    | .error e => .error e
    | .ok sub =>
      match ext.initRestErr with
      | some e => .error e
      | none => .ok ⟨cfg', sub, [], []⟩

theorem splitSlice_eq_filter (ss : List String) (check : String → Bool) :
    splitSlice ss check = (ss.filter check, ss.filter (fun t => !(check t))) := by
  induction ss with
  | nil => rfl
  | cons e rest ih =>
    simp only [splitSlice, ih, List.filter]
    cases h : check e <;> simp [h]

theorem splitMatchers_eq_filterMap (ms : List Matcher) (p : String → Bool) :
    splitMatchers ms p =
      (ms.filterMap (fun m =>
        let ts := m.types.filter p
        if ts.isEmpty then none else some (m.copyWithTypes ts)),
       ms.filterMap (fun m =>
        let ts := m.types.filter (fun t => !(p t))
        if ts.isEmpty then none else some (m.copyWithTypes ts))) := by
  induction ms with
  | nil => rfl
  | cons m rest ih =>
    simp only [splitMatchers, ih, splitSlice_eq_filter, Matcher.getTypes,
      List.filterMap_cons]
    rcases h1 : (m.types.filter p).isEmpty with _ | _ <;>
      rcases h2 : (m.types.filter (fun t => !(p t))).isEmpty with _ | _ <;>
        simp_all [List.isEmpty_iff, List.length_pos]
    exact h1.imp fun x hx => hx.1

/-! ## Table lemmas -/

theorem lookup_filter_ne_self (t : FetcherTable) (k : String) :
    List.lookup k (t.filter fun kv => kv.1 != k) = none := by
  induction t with
  | nil => rfl
  | cons kv rest ih =>
    by_cases h : kv.1 = k
    · rw [List.filter_cons_of_neg (by simp [h])]
      exact ih
    · rw [List.filter_cons_of_pos (by simp [h])]
      rcases kv with ⟨a, b⟩
      rw [List.lookup_cons]
      rw [show (k == a) = false from beq_false_of_ne (Ne.symm h)]
      exact ih

theorem lookup_append_left_none {β : Type} (l1 l2 : List (String × β)) (k : String)
    (h : List.lookup k l1 = none) : List.lookup k (l1 ++ l2) = List.lookup k l2 := by
  induction l1 with
  | nil => rfl
  | cons kv rest ih =>
    rcases kv with ⟨a, b⟩
    by_cases hk : k = a
    · rw [List.lookup_cons, show (k == a) = true from beq_iff_eq.mpr hk] at h
      cases h
    · rw [List.lookup_cons, show (k == a) = false from beq_false_of_ne hk] at h
      rw [List.cons_append, List.lookup_cons,
        show (k == a) = false from beq_false_of_ne hk]
      exact ih h

theorem tableGet_tableInsert (t : FetcherTable) (k : String) (v : List DBFetcher) :
    tableGet (tableInsert t k v) k = some v := by
  unfold tableGet tableInsert
  rw [lookup_append_left_none _ _ _ (lookup_filter_ne_self t k)]
  simp [List.lookup]

theorem tableGet_tableDelete (t : FetcherTable) (k : String) :
    tableGet (tableDelete t k) k = none :=
  lookup_filter_ne_self t k

/-! ## Claim theorems -/

/-- C2: `splitMatchers(M, P)` partitions each matcher's declared types
by `P`: the "matched" entry keeps exactly the types satisfying `P`,
the "other" entry exactly the rest, declaration order and all other
fields are preserved, the two type-sets are disjoint and their union
reconstructs the original type-set, and a matcher with no surviving
types on one side contributes no entry to that side. -/
theorem splitMatchers_partitions (ms : List Matcher) (p : String → Bool) :
    splitMatchers ms p =
      (ms.filterMap (fun mm =>
        let ts := mm.types.filter p
        if ts.isEmpty then none else some (mm.copyWithTypes ts)),
       ms.filterMap (fun mm =>
        let ts := mm.types.filter (fun t => !(p t))
        if ts.isEmpty then none else some (mm.copyWithTypes ts)))
    ∧ (∀ m ∈ ms, ∀ t, t ∈ m.types.filter p → t ∉ m.types.filter (fun t => !(p t)))
    ∧ (∀ m ∈ ms, ∀ t,
        t ∈ m.types ↔ (t ∈ m.types.filter p ∨ t ∈ m.types.filter (fun t => !(p t)))) := by
  refine ⟨splitMatchers_eq_filterMap ms p, ?_, ?_⟩
  · intro m _ t ht hmem
    rw [List.mem_filter] at ht hmem
    rw [ht.2] at hmem
    simp at hmem
  · intro m _ t
    constructor
    · intro ht
      by_cases hp : p t
      · exact Or.inl (List.mem_filter.mpr ⟨ht, hp⟩)
      · exact Or.inr (List.mem_filter.mpr ⟨ht, by simp [hp]⟩)
    · rintro (h | h) <;> exact (List.mem_filter.mp h).1

/-- Witness for C2 at a concrete matcher list and predicate. -/
theorem splitMatchers_partitions_witness :
    splitMatchers [Matcher.mk ["ec2", "rds"] 5] (fun t => t == "ec2")
      = ([Matcher.mk ["ec2"] 5], [Matcher.mk ["rds"] 5]) := by
  have h := (splitMatchers_partitions [Matcher.mk ["ec2", "rds"] 5] (fun t => t == "ec2")).1
  rw [h]
  decide

/-- C5: in the dynamic matcher event loop, a put event for a
discovery config in the service's group replaces that config's
fetcher-table entry with fetchers derived from its matcher set; a put
event for a config in another group deletes the entry; a delete event
removes the entry; any other event type is skipped without modifying
the table. -/
theorem dynamic_matcher_event_loop_table (p : DBTypePreds) (group : String)
    (table : FetcherTable) (dc : DiscoveryConfig) (res : Resource) (et : EventType) :
    (dc.discoveryGroup = group →
      handleDynamicEvent p group table ⟨.opPut, .discoveryConfig dc⟩ =
        some (tableInsert table dc.name (databaseFetchersFromMatchers p dc.matchers))
      ∧ ∀ t, handleDynamicEvent p group table ⟨.opPut, .discoveryConfig dc⟩ = some t →
          tableGet t dc.name = some (databaseFetchersFromMatchers p dc.matchers))
    ∧ (dc.discoveryGroup ≠ group →
      handleDynamicEvent p group table ⟨.opPut, .discoveryConfig dc⟩ =
        some (tableDelete table dc.name)
      ∧ ∀ t, handleDynamicEvent p group table ⟨.opPut, .discoveryConfig dc⟩ = some t →
          tableGet t dc.name = none)
    ∧ (handleDynamicEvent p group table ⟨.opDelete, res⟩ = some (tableDelete table res.name)
      ∧ tableGet (tableDelete table res.name) res.name = none)
    ∧ (et ≠ .opPut → et ≠ .opDelete →
        handleDynamicEvent p group table ⟨et, res⟩ = some table) := by
  refine ⟨?_, ?_, ⟨?_, tableGet_tableDelete table res.name⟩, ?_⟩
  · intro hg
    have heq : handleDynamicEvent p group table ⟨.opPut, .discoveryConfig dc⟩ =
        some (tableInsert table dc.name (databaseFetchersFromMatchers p dc.matchers)) := by
      simp [handleDynamicEvent, hg, upsertDynamicMatchers]
    refine ⟨heq, fun t ht => ?_⟩
    rw [heq] at ht
    cases ht
    exact tableGet_tableInsert table dc.name _
  · intro hg
    have heq : handleDynamicEvent p group table ⟨.opPut, .discoveryConfig dc⟩ =
        some (tableDelete table dc.name) := by
      simp [handleDynamicEvent, Resource.name, bne_iff_ne, hg]
    refine ⟨heq, fun t ht => ?_⟩
    rw [heq] at ht
    cases ht
    exact tableGet_tableDelete table dc.name
  · simp [handleDynamicEvent]
  · intro h1 h2
    cases et <;> simp_all [handleDynamicEvent]

/-- Witness for C5 at a concrete table and events. -/
theorem dynamic_matcher_event_loop_table_witness :
    handleDynamicEvent ⟨fun _ => true, fun _ => true⟩ "g1" []
        ⟨.opPut, .discoveryConfig ⟨"dc1", "g1", [], [], [], []⟩⟩ =
      some (tableInsert [] "dc1"
        (databaseFetchersFromMatchers ⟨fun _ => true, fun _ => true⟩
          (DiscoveryConfig.matchers ⟨"dc1", "g1", [], [], [], []⟩))) :=
  ((dynamic_matcher_event_loop_table ⟨fun _ => true, fun _ => true⟩ "g1" []
      ⟨"dc1", "g1", [], [], [], []⟩ (.otherResource "x") .opInit).1 rfl).1

/-- C10: a put event whose resource is not a `DiscoveryConfig` makes
the updater goroutine return at once, leaving the table unchanged,
and no later event is ever processed, so the dynamic fetcher table is
never modified again (unlike unrecognized event types, which are
skipped). -/
theorem dynamic_loop_stops_on_bad_resource (p : DBTypePreds) (group nm : String)
    (table : FetcherTable) (pre post : List Event) :
    handleDynamicEvent p group table ⟨.opPut, .otherResource nm⟩ = none
    ∧ runDynamicLoop p group table (pre ++ ⟨.opPut, .otherResource nm⟩ :: post) =
        runDynamicLoop p group table (pre ++ [⟨.opPut, .otherResource nm⟩])
    ∧ (∀ et res, et ≠ EventType.opPut →
        handleDynamicEvent p group table ⟨et, res⟩ ≠ none) := by
  refine ⟨rfl, ?_, ?_⟩
  · induction pre generalizing table with
    | nil => simp [runDynamicLoop, handleDynamicEvent]
    | cons ev rest ih =>
      simp only [List.cons_append, runDynamicLoop]
      cases handleDynamicEvent p group table ev with
      | none => rfl
      | some t => exact ih t
  · intro et res het
    cases et <;> cases res <;> simp_all [handleDynamicEvent]

/-- Witness for C10 at a concrete event sequence. -/
theorem dynamic_loop_stops_on_bad_resource_witness :
    runDynamicLoop ⟨fun _ => true, fun _ => true⟩ "g1" []
        ([⟨.opDelete, .otherResource "a"⟩] ++ ⟨.opPut, .otherResource "bad"⟩ ::
          [⟨.opPut, .discoveryConfig ⟨"dc1", "g1", [], [], [], []⟩⟩]) =
      runDynamicLoop ⟨fun _ => true, fun _ => true⟩ "g1" []
        ([⟨.opDelete, .otherResource "a"⟩] ++ [⟨.opPut, .otherResource "bad"⟩]) :=
  (dynamic_loop_stops_on_bad_resource ⟨fun _ => true, fun _ => true⟩ "g1" "bad" []
      [⟨.opDelete, .otherResource "a"⟩]
      [⟨.opPut, .discoveryConfig ⟨"dc1", "g1", [], [], [], []⟩⟩]).2.1

theorem getMostRecentRotation_foldl (cas : List CertAuthority) (init : Nat) :
    cas.foldl (fun mostRecentUpdate ca =>
      let caRot := ca.rotation
      let m1 := if caRot.state = RotationState.inProgress ∧ caRot.started > mostRecentUpdate
        then caRot.started else mostRecentUpdate
      if caRot.lastRotated > m1 then caRot.lastRotated else m1) init
    = ((cas.map rotationCandidates).flatten).foldl max init := by
  induction cas generalizing init with
  | nil => rfl
  | cons ca rest ih =>
    simp only [List.foldl_cons, List.map_cons, List.flatten_cons, List.foldl_append]
    rw [ih]
    congr 1
    unfold rotationCandidates
    by_cases hst : ca.rotation.state = RotationState.inProgress <;>
      simp [hst, Nat.max_def] <;> split_ifs <;> omega

/-- C4: on a CA-rotation tick the most recent rotation timestamp is
the maximum of "rotation in progress started" and "last rotated"
across the OpenSSH and Host CAs; an OpenSSH inventory node carrying
both AWS identity labels is in the rotation batch iff its recorded
last-rotated timestamp strictly precedes that maximum; and when no
node qualifies the result is a `NotFound` condition the tick treats
as a logged debug no-op. -/
theorem ca_rotation_batch_membership (openSSHCA hostCA : CertAuthority)
    (nodes : List Node) (n : Node) (m : Nat)
    (hm : m = getMostRecentRotationForCAs [openSSHCA, hostCA]) :
    (m = (([openSSHCA, hostCA].map rotationCandidates).flatten).foldl max 0)
    ∧ (nodes.filter (unrotatedPred m) ≠ [] →
        findUnrotatedEC2Nodes openSSHCA hostCA nodes = .ok (nodes.filter (unrotatedPred m)))
    ∧ (n ∈ nodes → n.subKind = subKindOpenSSHNode →
        n.hasLabel awsAccountIDLabel = true → n.hasLabel awsInstanceIDLabel = true →
        (n ∈ nodes.filter (unrotatedPred m) ↔ n.lastRotated < m))
    ∧ (nodes.filter (unrotatedPred m) = [] →
        findUnrotatedEC2Nodes openSSHCA hostCA nodes =
          .error (.notFound "no unrotated nodes found")
        ∧ caRotationTick openSSHCA hostCA nodes = .noopDebug) := by
  subst hm
  refine ⟨getMostRecentRotation_foldl [openSSHCA, hostCA] 0, ?_, ?_, ?_⟩
  · intro hne
    unfold findUnrotatedEC2Nodes
    rw [if_neg (by simpa [List.isEmpty_iff] using hne)]
  · intro hmem hsub hacc hinst
    rw [List.mem_filter]
    unfold unrotatedPred
    simp [hmem, hsub, hacc, hinst]
  · intro hempty
    have hfind : findUnrotatedEC2Nodes openSSHCA hostCA nodes =
        .error (.notFound "no unrotated nodes found") := by
      unfold findUnrotatedEC2Nodes
      rw [if_pos (by simpa [List.isEmpty_iff] using hempty)]
    exact ⟨hfind, by unfold caRotationTick; rw [hfind]⟩

/-- Witness for C4 at concrete CAs and nodes: the Host CA is mid
rotation started at 7, so the node last rotated at 3 is pushed and
the node last rotated at 7 is excluded. -/
theorem ca_rotation_batch_membership_witness :
    findUnrotatedEC2Nodes
        ⟨⟨RotationState.standby, 0, 5⟩⟩ ⟨⟨RotationState.inProgress, 7, 3⟩⟩
        [⟨[(awsAccountIDLabel, "a"), (awsInstanceIDLabel, "i1")], subKindOpenSSHNode, 3⟩,
         ⟨[(awsAccountIDLabel, "a"), (awsInstanceIDLabel, "i2")], subKindOpenSSHNode, 7⟩]
      = .ok [⟨[(awsAccountIDLabel, "a"), (awsInstanceIDLabel, "i1")], subKindOpenSSHNode, 3⟩] :=
  (((ca_rotation_batch_membership ⟨⟨RotationState.standby, 0, 5⟩⟩
      ⟨⟨RotationState.inProgress, 7, 3⟩⟩
      [⟨[(awsAccountIDLabel, "a"), (awsInstanceIDLabel, "i1")], subKindOpenSSHNode, 3⟩,
       ⟨[(awsAccountIDLabel, "a"), (awsInstanceIDLabel, "i2")], subKindOpenSSHNode, 7⟩]
      ⟨[], "", 0⟩ _ rfl).2.1 (by decide)).trans (congrArg Except.ok (by decide)))

/-- C6: `New` fails with a configuration error, constructing no
server, whenever the matcher set is empty and no discovery group is
set, and whenever a Kubernetes matcher is present but no discovery
group is set; both checks run inside `New` at construction time. -/
theorem new_config_validation_errors (ext : NewExt) (cfg : Config) :
    (cfg.matchers.isEmpty = true → cfg.discoveryGroup = "" →
      ∃ msg, new ext cfg = .error (.badParameter msg))
    ∧ (cfg.matchers.kubernetes.length > 0 → cfg.discoveryGroup = "" →
      ∃ msg, new ext cfg = .error (.badParameter msg)) := by
  constructor
  · intro h1 h2
    refine ⟨"no matchers or discovery group configured for discovery", ?_⟩
    unfold new checkAndSetDefaults
    rw [if_pos ⟨h1, h2⟩]
  · intro hk hg
    have hne : ¬(cfg.matchers.isEmpty ∧ cfg.discoveryGroup = "") := by
      rintro ⟨he, -⟩
      unfold Matchers.isEmpty at he
      simp only [Bool.and_eq_true, beq_iff_eq] at he
      omega
    unfold new checkAndSetDefaults
    rw [if_neg hne]
    by_cases he : cfg.emitterSet
    · rw [if_neg (by simp [he])]
      by_cases ha : cfg.accessPointSet
      · rw [if_neg (by simp [ha])]
        rw [if_pos ⟨hk, hg⟩]
        exact ⟨_, rfl⟩
      · rw [if_pos (by simp [ha])]
        exact ⟨_, rfl⟩
    · rw [if_pos (by simp [he])]
      exact ⟨_, rfl⟩

/-- Witness for C6 at concrete configurations: one with no matchers
and no group, one with a Kubernetes matcher and no group. -/
theorem new_config_validation_errors_witness :
    (∃ msg, new ⟨none, none, .opened (.firstEvent ⟨.opInit, .otherResource ""⟩), none⟩
        ⟨⟨[], [], [], []⟩, "", true, true, true, true, 0⟩ = .error (.badParameter msg))
    ∧ (∃ msg, new ⟨none, none, .opened (.firstEvent ⟨.opInit, .otherResource ""⟩), none⟩
        ⟨⟨[], [], [], [⟨["app"], 0⟩]⟩, "", true, true, true, true, 0⟩ =
          .error (.badParameter msg)) :=
  ⟨(new_config_validation_errors _ _).1 (by decide) rfl,
   (new_config_validation_errors _ _).2 (by decide) rfl⟩

/-- C8: with a discovery group set, construction reaches past the
dynamic-configuration subscription only after the initial `OpInit`
event; a first event of any other type or the done channel firing
first fails construction, surfacing the subscription's error; with no
discovery group, no subscription is opened and this step cannot
fail. -/
theorem dynamic_watcher_startup (ext : NewExt) (cfg cfg' : Config)
    (group : String) (event : Event) (e : DiscErr) :
    (startDynamicMatchersWatcher ext "" = .ok false)
    ∧ (group ≠ "" → ext.newWatcher = .opened (.firstEvent event) →
        event.type = .opInit → startDynamicMatchersWatcher ext group = .ok true)
    ∧ (group ≠ "" → ext.newWatcher = .opened (.firstEvent event) →
        event.type ≠ .opInit →
        ∃ msg, startDynamicMatchersWatcher ext group = .error (.badParameter msg))
    ∧ (group ≠ "" → ext.newWatcher = .opened (.doneFirst e) →
        startDynamicMatchersWatcher ext group = .error e)
    ∧ (checkAndSetDefaults ext cfg = .ok cfg' → cfg'.discoveryGroup = "" →
        new ext cfg = (match ext.initRestErr with
          | some e2 => .error e2
          | none => .ok ⟨cfg', false, [], []⟩))
    ∧ (checkAndSetDefaults ext cfg = .ok cfg' → cfg'.discoveryGroup ≠ "" →
        ext.newWatcher = .opened (.doneFirst e) → new ext cfg = .error e) := by
  refine ⟨by unfold startDynamicMatchersWatcher; rw [if_pos rfl], ?_, ?_, ?_, ?_, ?_⟩
  · intro hg hw hinit
    unfold startDynamicMatchersWatcher
    rw [if_neg hg, hw]
    simp [hinit]
  · intro hg hw hninit
    exact ⟨"failed to watch for DiscoveryConfig: received an unexpected event while waiting for the initial OpInit",
      by simp [startDynamicMatchersWatcher, hg, hw, hninit]⟩
  · intro hg hw
    unfold startDynamicMatchersWatcher
    rw [if_neg hg, hw]
  · intro hchk hg
    have hs : startDynamicMatchersWatcher ext cfg'.discoveryGroup = .ok false := by
      unfold startDynamicMatchersWatcher
      rw [if_pos hg]
    simp only [new, hchk, hs]
  · intro hchk hg hw
    have hs : startDynamicMatchersWatcher ext cfg'.discoveryGroup = .error e := by
      unfold startDynamicMatchersWatcher
      rw [if_neg hg, hw]
    simp only [new, hchk, hs]

/-- Witness for C8 at concrete inputs: no group means no subscription;
with a group, a done channel firing first surfaces its error. -/
theorem dynamic_watcher_startup_witness :
    (startDynamicMatchersWatcher
        ⟨none, none, .opened (.doneFirst (.external "stream closed")), none⟩ "" = .ok false)
    ∧ (startDynamicMatchersWatcher
        ⟨none, none, .opened (.doneFirst (.external "stream closed")), none⟩ "g1" =
        .error (.external "stream closed")) :=
  ⟨(dynamic_watcher_startup
      ⟨none, none, .opened (.doneFirst (.external "stream closed")), none⟩
      ⟨⟨[], [], [], []⟩, "", true, true, true, true, 0⟩
      ⟨⟨[], [], [], []⟩, "", true, true, true, true, 0⟩
      "g1" ⟨.opInit, .otherResource ""⟩ (.external "stream closed")).1,
   (dynamic_watcher_startup
      ⟨none, none, .opened (.doneFirst (.external "stream closed")), none⟩
      ⟨⟨[], [], [], []⟩, "", true, true, true, true, 0⟩
      ⟨⟨[], [], [], []⟩, "", true, true, true, true, 0⟩
      "g1" ⟨.opInit, .otherResource ""⟩ (.external "stream closed")).2.2.2.1
      (by decide) rfl⟩

/-! ## Usage-event lemmas -/

theorem emit_cache_mono (sinkErr : String → Bool) (evs : List String) :
    ∀ cache, cache ⊆ (emitUsageEvents sinkErr cache evs).cache := by
  induction evs with
  | nil => intro cache; exact fun a ha => ha
  | cons name rest ih =>
    intro cache a ha
    by_cases hc : name ∈ cache
    · simpa [emitUsageEvents, hc] using ih cache ha
    · by_cases hs : sinkErr name
      · simp [emitUsageEvents, hc, hs]
        exact Or.inr ha
      · simpa [emitUsageEvents, hc, hs] using ih (name :: cache) (List.mem_cons_of_mem name ha)

theorem emit_skip_cached (sinkErr : String → Bool) (evs : List String) :
    ∀ cache name, name ∈ cache → name ∉ (emitUsageEvents sinkErr cache evs).calls := by
  induction evs with
  | nil => intro cache name _; simp [emitUsageEvents]
  | cons nm rest ih =>
    intro cache name hmem
    by_cases hc : nm ∈ cache
    · simpa [emitUsageEvents, hc] using ih cache name hmem
    · by_cases hs : sinkErr nm
      · simp [emitUsageEvents, hc, hs]
        rintro rfl
        exact hc hmem
      · simp [emitUsageEvents, hc, hs]
        constructor
        · rintro rfl; exact hc hmem
        · exact ih (nm :: cache) name (List.mem_cons_of_mem nm hmem)

theorem emit_calls_in_cache (sinkErr : String → Bool) (evs : List String) :
    ∀ cache n, n ∈ (emitUsageEvents sinkErr cache evs).calls →
      n ∈ (emitUsageEvents sinkErr cache evs).cache := by
  induction evs with
  | nil => intro cache n h; simp [emitUsageEvents] at h
  | cons nm rest ih =>
    intro cache n h
    by_cases hc : nm ∈ cache
    · rw [show emitUsageEvents sinkErr cache (nm :: rest) = emitUsageEvents sinkErr cache rest
        from by simp [emitUsageEvents, hc]] at h ⊢
      exact ih cache n h
    · by_cases hs : sinkErr nm
      · simp [emitUsageEvents, hc, hs] at h ⊢
        exact Or.inl h
      · rw [show emitUsageEvents sinkErr cache (nm :: rest) =
          ⟨(emitUsageEvents sinkErr (nm :: cache) rest).cache,
           nm :: (emitUsageEvents sinkErr (nm :: cache) rest).calls,
           (emitUsageEvents sinkErr (nm :: cache) rest).errored⟩
          from by simp [emitUsageEvents, hc, hs]] at h ⊢
        rcases List.mem_cons.mp h with rfl | h2
        · exact emit_cache_mono sinkErr rest (_ :: cache) (List.mem_cons_self _ cache)
        · exact ih (nm :: cache) n h2

theorem emit_calls_nodup_fresh (sinkErr : String → Bool) (evs : List String) :
    ∀ cache, (emitUsageEvents sinkErr cache evs).calls.Nodup
      ∧ ∀ n ∈ (emitUsageEvents sinkErr cache evs).calls, n ∉ cache := by
  induction evs with
  | nil => intro cache; simp [emitUsageEvents]
  | cons nm rest ih =>
    intro cache
    by_cases hc : nm ∈ cache
    · rw [show emitUsageEvents sinkErr cache (nm :: rest) = emitUsageEvents sinkErr cache rest
        from by simp [emitUsageEvents, hc]]
      exact ih cache
    · by_cases hs : sinkErr nm
      · refine ⟨by simp [emitUsageEvents, hc, hs], ?_⟩
        intro n hn
        simp [emitUsageEvents, hc, hs] at hn
        rw [hn]; exact hc
      · rw [show emitUsageEvents sinkErr cache (nm :: rest) =
          ⟨(emitUsageEvents sinkErr (nm :: cache) rest).cache,
           nm :: (emitUsageEvents sinkErr (nm :: cache) rest).calls,
           (emitUsageEvents sinkErr (nm :: cache) rest).errored⟩
          from by simp [emitUsageEvents, hc, hs]]
        obtain ⟨hnd, hfresh⟩ := ih (nm :: cache)
        refine ⟨List.nodup_cons.mpr ⟨fun hmem => ?_, hnd⟩, ?_⟩
        · exact hfresh nm hmem (List.mem_cons_self nm cache)
        · intro n hn
          rcases List.mem_cons.mp hn with rfl | h2
          · exact hc
          · exact fun hmem => hfresh n h2 (List.mem_cons_of_mem nm hmem)

theorem lifetime_cache_mono (sinkErr : String → Bool) (batches : List (List String)) :
    ∀ cache, cache ⊆ (emitLifetime sinkErr cache batches).1 := by
  induction batches with
  | nil => intro cache; exact fun a ha => ha
  | cons evs rest ih =>
    intro cache a ha
    exact ih (emitUsageEvents sinkErr cache evs).cache (emit_cache_mono sinkErr evs cache ha)

theorem lifetime_calls_nodup_fresh (sinkErr : String → Bool) (batches : List (List String)) :
    ∀ cache, (emitLifetime sinkErr cache batches).2.Nodup
      ∧ ∀ n ∈ (emitLifetime sinkErr cache batches).2, n ∉ cache := by
  induction batches with
  | nil => intro cache; simp [emitLifetime]
  | cons evs rest ih =>
    intro cache
    obtain ⟨hnd1, hfresh1⟩ := emit_calls_nodup_fresh sinkErr evs cache
    obtain ⟨hnd2, hfresh2⟩ := ih (emitUsageEvents sinkErr cache evs).cache
    have hdisj : ∀ n ∈ (emitUsageEvents sinkErr cache evs).calls,
        n ∉ (emitLifetime sinkErr (emitUsageEvents sinkErr cache evs).cache rest).2 := by
      intro n hn hmem
      exact hfresh2 n hmem (emit_calls_in_cache sinkErr evs cache n hn)
    constructor
    · show ((emitUsageEvents sinkErr cache evs).calls ++
        (emitLifetime sinkErr (emitUsageEvents sinkErr cache evs).cache rest).2).Nodup
      exact List.Nodup.append hnd1 hnd2 (List.disjoint_left.mpr hdisj)
    · intro n hn
      rcases List.mem_append.mp hn with h | h
      · exact hfresh1 n h
      · intro hmem
        exact hfresh2 n h (emit_cache_mono sinkErr evs cache hmem)

theorem lifetime_skip_cached (sinkErr : String → Bool) (batches : List (List String))
    (cache : List String) (name : String) (h : name ∈ cache) :
    name ∉ (emitLifetime sinkErr cache batches).2 := fun hmem =>
  (lifetime_calls_nodup_fresh sinkErr batches cache).2 name hmem h

/-- C3: across a whole process lifetime of `emitUsageEvents` calls,
the sink is called at most once per event name; a name already in the
usage-event cache is always skipped without a sink call; and the
cache never shrinks — each call and the whole lifetime only grow
it. -/
theorem usage_events_at_most_once (sinkErr : String → Bool)
    (batches : List (List String)) (cache evs : List String) (name : String) :
    ((emitLifetime sinkErr [] batches).2.count name ≤ 1)
    ∧ (name ∈ cache → name ∉ (emitLifetime sinkErr cache batches).2)
    ∧ (cache ⊆ (emitUsageEvents sinkErr cache evs).cache)
    ∧ (cache ⊆ (emitLifetime sinkErr cache batches).1) :=
  ⟨List.nodup_iff_count_le_one.mp (lifetime_calls_nodup_fresh sinkErr batches []).1 name,
   lifetime_skip_cached sinkErr batches cache name,
   emit_cache_mono sinkErr evs cache,
   lifetime_cache_mono sinkErr batches cache⟩

/-- Witness for C3: feeding the same name in two batches yields at
most one sink call, and a name already cached is never submitted. -/
theorem usage_events_at_most_once_witness :
    ((emitLifetime (fun _ => false) [] [["e1", "e2"], ["e1"]]).2.count "e1" ≤ 1)
    ∧ ("e1" ∉ (emitLifetime (fun _ => false) ["e1"] [["e1"], ["e1"]]).2) :=
  ⟨(usage_events_at_most_once (fun _ => false) [["e1", "e2"], ["e1"]] [] [] "e1").1,
   (usage_events_at_most_once (fun _ => false) [["e1"], ["e1"]] ["e1"] [] "e1").2.1
     (by decide)⟩

theorem emit_error_decomp (sinkErr : String → Bool) (events : List String) :
    ∀ cache, (emitUsageEvents sinkErr cache events).errored = true →
      ∃ pre n post, events = pre ++ n :: post
        ∧ sinkErr n = true
        ∧ n ∉ (emitUsageEvents sinkErr cache pre).cache
        ∧ (emitUsageEvents sinkErr cache pre).errored = false
        ∧ (emitUsageEvents sinkErr cache events).calls =
            (emitUsageEvents sinkErr cache pre).calls ++ [n]
        ∧ (emitUsageEvents sinkErr cache events).cache =
            n :: (emitUsageEvents sinkErr cache pre).cache := by
  induction events with
  | nil => intro cache h; simp [emitUsageEvents] at h
  | cons nm rest ih =>
    intro cache h
    by_cases hc : nm ∈ cache
    · have hred : emitUsageEvents sinkErr cache (nm :: rest) =
          emitUsageEvents sinkErr cache rest := by simp [emitUsageEvents, hc]
      rw [hred] at h
      obtain ⟨pre, n, post, hev, hs, hfresh, herr, hcalls, hcache⟩ := ih cache h
      have hpre : emitUsageEvents sinkErr cache (nm :: pre) =
          emitUsageEvents sinkErr cache pre := by simp [emitUsageEvents, hc]
      exact ⟨nm :: pre, n, post, by rw [hev, List.cons_append], hs,
        by rw [hpre]; exact hfresh, by rw [hpre]; exact herr,
        by rw [hred, hpre]; exact hcalls, by rw [hred, hpre]; exact hcache⟩
    · by_cases hs : sinkErr nm
      · refine ⟨[], nm, rest, rfl, hs, ?_, rfl, ?_, ?_⟩
        · simpa [emitUsageEvents] using hc
        · simp [emitUsageEvents, hc, hs]
        · simp [emitUsageEvents, hc, hs]
      · have hred : emitUsageEvents sinkErr cache (nm :: rest) =
            ⟨(emitUsageEvents sinkErr (nm :: cache) rest).cache,
             nm :: (emitUsageEvents sinkErr (nm :: cache) rest).calls,
             (emitUsageEvents sinkErr (nm :: cache) rest).errored⟩ := by
          simp [emitUsageEvents, hc, hs]
        rw [hred] at h
        obtain ⟨pre, n, post, hev, hsn, hfresh, herr, hcalls, hcache⟩ := ih (nm :: cache) h
        have hpre : emitUsageEvents sinkErr cache (nm :: pre) =
            ⟨(emitUsageEvents sinkErr (nm :: cache) pre).cache,
             nm :: (emitUsageEvents sinkErr (nm :: cache) pre).calls,
             (emitUsageEvents sinkErr (nm :: cache) pre).errored⟩ := by
          simp [emitUsageEvents, hc, hs]
        refine ⟨nm :: pre, n, post, by rw [hev, List.cons_append], hsn, ?_, ?_, ?_, ?_⟩
        · rw [hpre]; exact hfresh
        · rw [hpre]; exact herr
        · rw [hred, hpre]
          simp only [hcalls]
          rfl
        · rw [hred, hpre]
          simp only [hcache]

/-- C9: every name submitted in a call is in the cache afterwards (it
is cached before the sink is called); when the sink errors, the call
ends at the erring fresh name — it is the last sink call, it stays
recorded, the rest of the batch is neither cached nor submitted in
that call, and no later call ever resubmits it. -/
theorem emit_usage_events_error_path (sinkErr : String → Bool)
    (cache events laterEvents : List String) :
    (∀ n ∈ (emitUsageEvents sinkErr cache events).calls,
        n ∈ (emitUsageEvents sinkErr cache events).cache)
    ∧ ((emitUsageEvents sinkErr cache events).errored = true →
        ∃ pre n post, events = pre ++ n :: post
          ∧ sinkErr n = true
          ∧ n ∉ (emitUsageEvents sinkErr cache pre).cache
          ∧ (emitUsageEvents sinkErr cache pre).errored = false
          ∧ (emitUsageEvents sinkErr cache events).calls =
              (emitUsageEvents sinkErr cache pre).calls ++ [n]
          ∧ (emitUsageEvents sinkErr cache events).cache =
              n :: (emitUsageEvents sinkErr cache pre).cache
          ∧ n ∈ (emitUsageEvents sinkErr cache events).cache
          ∧ n ∉ (emitUsageEvents sinkErr
              (emitUsageEvents sinkErr cache events).cache laterEvents).calls) := by
  refine ⟨emit_calls_in_cache sinkErr events cache, fun h => ?_⟩
  obtain ⟨pre, n, post, hev, hs, hfresh, herr, hcalls, hcache⟩ :=
    emit_error_decomp sinkErr events cache h
  have hmem : n ∈ (emitUsageEvents sinkErr cache events).cache := by
    rw [hcache]; exact List.mem_cons_self n _
  exact ⟨pre, n, post, hev, hs, hfresh, herr, hcalls, hcache, hmem,
    emit_skip_cached sinkErr laterEvents _ n hmem⟩

/-- Witness for C9: the sink rejects `e2`; the call submits `e1` then
`e2`, stops there with `e3` untouched, and a later call skips
`e2`. -/
theorem emit_usage_events_error_path_witness :
    (∀ n ∈ (emitUsageEvents (fun s => s == "e2") [] ["e1", "e2", "e3"]).calls,
        n ∈ (emitUsageEvents (fun s => s == "e2") [] ["e1", "e2", "e3"]).cache)
    ∧ ∃ pre n post, ["e1", "e2", "e3"] = pre ++ n :: post
        ∧ (fun s => s == "e2") n = true
        ∧ n ∉ (emitUsageEvents (fun s => s == "e2") [] pre).cache
        ∧ (emitUsageEvents (fun s => s == "e2") [] pre).errored = false
        ∧ (emitUsageEvents (fun s => s == "e2") [] ["e1", "e2", "e3"]).calls =
            (emitUsageEvents (fun s => s == "e2") [] pre).calls ++ [n]
        ∧ (emitUsageEvents (fun s => s == "e2") [] ["e1", "e2", "e3"]).cache =
            n :: (emitUsageEvents (fun s => s == "e2") [] pre).cache
        ∧ n ∈ (emitUsageEvents (fun s => s == "e2") [] ["e1", "e2", "e3"]).cache
        ∧ n ∉ (emitUsageEvents (fun s => s == "e2")
            (emitUsageEvents (fun s => s == "e2") [] ["e1", "e2", "e3"]).cache
            ["e2", "e4"]).calls :=
  ⟨(emit_usage_events_error_path (fun s => s == "e2") [] ["e1", "e2", "e3"] ["e2", "e4"]).1,
   (emit_usage_events_error_path (fun s => s == "e2") [] ["e1", "e2", "e3"] ["e2", "e4"]).2
     (by decide)⟩

/-! ## EC2 handler lemmas -/

theorem matchLabels_pair_hasLabel (n : Node) (k1 k2 v1 v2 : String)
    (h : matchLabels n [(k1, v1), (k2, v2)] = true) :
    (n.hasLabel k1 && n.hasLabel k2) = true := by
  simp only [matchLabels, List.all_cons, List.all_nil, Bool.and_eq_true,
    beq_iff_eq] at h
  simp [Node.hasLabel, h.1, h.2.1]

theorem ec2NodeMatches_filter_labels (nodes : List Node) (acc iid : String) :
    ec2NodeMatches (nodes.filter fun n =>
      n.hasLabel awsAccountIDLabel && n.hasLabel awsInstanceIDLabel) acc iid
    = ec2NodeMatches nodes acc iid := by
  unfold ec2NodeMatches
  induction nodes with
  | nil => rfl
  | cons n rest ih =>
    simp only [List.filter_cons, List.any_cons]
    by_cases hp : (n.hasLabel awsAccountIDLabel && n.hasLabel awsInstanceIDLabel) = true
    · rw [if_pos hp]
      simp only [List.any_cons, ih]
    · rw [if_neg hp]
      rw [ih]
      have hm : matchLabels n [(awsAccountIDLabel, acc), (awsInstanceIDLabel, iid)] = false := by
        by_contra hcon
        exact hp (matchLabels_pair_hasLabel n _ _ _ _ (by simpa using hcon))
      rw [hm, Bool.false_or]

theorem handleEC2_ok_run_false (nodes : List Node) (b : EC2Instances)
    (hrot : b.rotation = false) :
    (handleEC2Instances EC2Ext.ok nodes b).run =
      if (filterExistingEC2Nodes nodes b).instances = [] then none
      else some (mkSSMRunRequest (filterExistingEC2Nodes nodes b)) := by
  by_cases hI : (filterExistingEC2Nodes nodes b).instances = [] <;>
    simp [handleEC2Instances, EC2Ext.ok, hrot, hI]

theorem handleEC2_ok_run_true (nodes : List Node) (b : EC2Instances)
    (hrot : b.rotation = true) :
    (handleEC2Instances EC2Ext.ok nodes b).run =
      if b.instances = [] then none else some (mkSSMRunRequest b) := by
  by_cases hI : b.instances = [] <;>
    simp [handleEC2Instances, EC2Ext.ok, hrot, hI]

theorem filterExistingEC2Nodes_instances (nodes : List Node) (b : EC2Instances) :
    (filterExistingEC2Nodes nodes b).instances =
      b.instances.filter fun inst =>
        !(ec2NodeMatches nodes b.accountID inst.instanceID) := by
  show b.instances.filter _ = b.instances.filter _
  congr 1
  funext inst
  rw [ec2NodeMatches_filter_labels]

theorem filterExistingEC2Nodes_accountID (nodes : List Node) (b : EC2Instances) :
    (filterExistingEC2Nodes nodes b).accountID = b.accountID := rfl

theorem run_instances_unmatched (nodes : List Node) (b : EC2Instances)
    (req : SSMRunRequest) (hrot : b.rotation = false)
    (hrun : (handleEC2Instances EC2Ext.ok nodes b).run = some req) :
    req = mkSSMRunRequest (filterExistingEC2Nodes nodes b)
    ∧ ∀ inst ∈ req.instances, ec2NodeMatches nodes b.accountID inst.instanceID = false := by
  rw [handleEC2_ok_run_false nodes b hrot] at hrun
  by_cases hI : (filterExistingEC2Nodes nodes b).instances = []
  · rw [if_pos hI] at hrun
    cases hrun
  · rw [if_neg hI] at hrun
    have hreq : req = mkSSMRunRequest (filterExistingEC2Nodes nodes b) :=
      (Option.some.injEq _ _ ▸ hrun).symm
    refine ⟨hreq, ?_⟩
    intro inst hmem
    have hmem2 : inst ∈ (filterExistingEC2Nodes nodes b).instances := by
      rw [hreq] at hmem
      exact hmem
    rw [filterExistingEC2Nodes_instances] at hmem2
    have := (List.mem_filter.mp hmem2).2
    simpa using this

theorem not_contains_of_enrolled (nodes : List Node) (b : EC2Instances)
    (req : SSMRunRequest) (acc iid : String)
    (henr : ec2NodeMatches nodes acc iid = true) (hrot : b.rotation = false)
    (hrun : (handleEC2Instances EC2Ext.ok nodes b).run = some req) :
    runContainsEC2 req acc iid = false := by
  obtain ⟨hreq, hunm⟩ := run_instances_unmatched nodes b req hrot hrun
  by_contra hcon
  have hcont : runContainsEC2 req acc iid = true := by
    simpa using hcon
  unfold runContainsEC2 at hcont
  simp only [Bool.and_eq_true, beq_iff_eq, List.any_eq_true] at hcont
  obtain ⟨hacc, inst, hmem, hid⟩ := hcont
  have hfalse := hunm inst hmem
  have haccb : req.accountID = b.accountID := by
    rw [hreq]; rfl
  rw [show b.accountID = acc from by rw [← haccb, hacc],
    show inst.instanceID = iid from by simpa using hid] at hfalse
  rw [henr] at hfalse
  cases hfalse

theorem enrollNodes_matches (req : SSMRunRequest) (acc iid : String)
    (hcont : runContainsEC2 req acc iid = true) :
    ec2NodeMatches (enrollNodes req) acc iid = true := by
  unfold runContainsEC2 at hcont
  simp only [Bool.and_eq_true, beq_iff_eq, List.any_eq_true] at hcont
  obtain ⟨hacc, inst, hmem, hid⟩ := hcont
  unfold ec2NodeMatches enrollNodes
  rw [List.any_eq_true]
  refine ⟨_, List.mem_map_of_mem _ hmem, ?_⟩
  have hne : (awsInstanceIDLabel == awsAccountIDLabel) = false := by decide
  simp only [matchLabels, List.all_cons, List.all_nil, Bool.and_eq_true]
  refine ⟨?_, ?_, trivial⟩
  · simp [Node.getLabel, List.lookup_cons, hacc]
  · simp [Node.getLabel, List.lookup_cons, hne]
    simpa using hid

theorem ec2NodeMatches_append (ns ms : List Node) (acc iid : String) :
    ec2NodeMatches (ns ++ ms) acc iid =
      (ec2NodeMatches ns acc iid || ec2NodeMatches ms acc iid) := by
  unfold ec2NodeMatches
  exact List.any_append

theorem enrolled_zero_runs (acc iid : String) (batches : List EC2Instances) :
    ∀ nodes, (∀ b ∈ batches, b.rotation = false) →
      ec2NodeMatches nodes acc iid = true →
      (ec2RunsEnrolling EC2Ext.ok nodes batches).countP
        (fun r => runContainsEC2 r acc iid) = 0 := by
  induction batches with
  | nil => intro nodes _ _; rfl
  | cons b rest ih =>
    intro nodes hall henr
    have hrot : b.rotation = false := hall b (List.mem_cons_self b rest)
    have hrest : ∀ b2 ∈ rest, b2.rotation = false :=
      fun b2 h2 => hall b2 (List.mem_cons_of_mem b h2)
    unfold ec2RunsEnrolling
    rcases hrun : (handleEC2Instances EC2Ext.ok nodes b).run with _ | req
    · exact ih nodes hrest henr
    · simp only [hrun, List.countP_cons,
        not_contains_of_enrolled nodes b req acc iid henr hrot hrun,
        if_false, Nat.add_zero]
      exact ih (nodes ++ enrollNodes req) hrest
        (by rw [ec2NodeMatches_append, henr, Bool.true_or])

theorem at_most_one_run (acc iid : String) (batches : List EC2Instances) :
    ∀ nodes, (∀ b ∈ batches, b.rotation = false) →
      (ec2RunsEnrolling EC2Ext.ok nodes batches).countP
        (fun r => runContainsEC2 r acc iid) ≤ 1 := by
  induction batches with
  | nil => intro nodes _; exact Nat.zero_le 1
  | cons b rest ih =>
    intro nodes hall
    have hrest : ∀ b2 ∈ rest, b2.rotation = false :=
      fun b2 h2 => hall b2 (List.mem_cons_of_mem b h2)
    unfold ec2RunsEnrolling
    rcases hrun : (handleEC2Instances EC2Ext.ok nodes b).run with _ | req
    · exact ih nodes hrest
    · show List.countP (fun r => runContainsEC2 r acc iid)
        (req :: ec2RunsEnrolling EC2Ext.ok (nodes ++ enrollNodes req) rest) ≤ 1
      rw [List.countP_cons]
      rcases hcont : runContainsEC2 req acc iid with _ | _
      · simp [hcont]
        exact ih (nodes ++ enrollNodes req) hrest
      · rw [enrolled_zero_runs acc iid rest (nodes ++ enrollNodes req) hrest
          (by rw [ec2NodeMatches_append, enrollNodes_matches req acc iid hcont,
            Bool.or_true])]
        simp [hcont]

/-- C1 counterexample: against a strictly static inventory that does
not contain the instance, feeding the same non-rotation batch twice
invokes the installer twice for that instance identity, so "at most
one `Run` invocation" fails as stated. -/
theorem ec2_static_inventory_double_feed_two_runs :
    ¬ ((ec2RunsStatic EC2Ext.ok []
        [⟨"a", "r", "d", [], [⟨"i-1"⟩], false⟩,
         ⟨"a", "r", "d", [], [⟨"i-1"⟩], false⟩]).countP
          (fun r => runContainsEC2 r "a" "i-1") ≤ 1) := by decide

/-- C1 (amended): with the collaborators succeeding, a non-rotation
batch is filtered against the inventory — every instance whose AWS
account ID plus instance ID matches a known node is removed before
the installer is invoked, and the installer sees exactly the filtered
instances; a rotation batch is not filtered and passes all its
instances; and feeding the same instance repeatedly yields at most
one `Run` invocation per identity provided the inventory records each
successfully enrolled instance before the next batch arrives. -/
theorem ec2_filtering_and_enrollment_idempotency
    (ext : EC2Ext) (nodes : List Node) (b : EC2Instances)
    (batches : List EC2Instances) (req : SSMRunRequest) (acc iid : String)
    (hext : ext = EC2Ext.ok) :
    (b.rotation = false →
      (handleEC2Instances ext nodes b).run =
        (if (filterExistingEC2Nodes nodes b).instances = [] then none
         else some (mkSSMRunRequest (filterExistingEC2Nodes nodes b))))
    ∧ (b.rotation = false → (handleEC2Instances ext nodes b).run = some req →
        ∀ inst ∈ req.instances, ec2NodeMatches nodes b.accountID inst.instanceID = false)
    ∧ (b.rotation = true →
      (handleEC2Instances ext nodes b).run =
        (if b.instances = [] then none else some (mkSSMRunRequest b)))
    ∧ ((∀ b2 ∈ batches, b2.rotation = false) →
        (ec2RunsEnrolling ext nodes batches).countP
          (fun r => runContainsEC2 r acc iid) ≤ 1) := by
  subst hext
  exact ⟨handleEC2_ok_run_false nodes b,
    fun hrot hrun => (run_instances_unmatched nodes b req hrot hrun).2,
    handleEC2_ok_run_true nodes b,
    at_most_one_run acc iid batches nodes⟩

/-- Witness for C1 (amended): the double feed of the counterexample,
but with the inventory recording the enrollment, yields at most one
run. -/
theorem ec2_filtering_and_enrollment_idempotency_witness :
    (ec2RunsEnrolling EC2Ext.ok []
        [⟨"a", "r", "d", [], [⟨"i-1"⟩], false⟩,
         ⟨"a", "r", "d", [], [⟨"i-1"⟩], false⟩]).countP
          (fun r => runContainsEC2 r "a" "i-1") ≤ 1 :=
  (ec2_filtering_and_enrollment_idempotency EC2Ext.ok []
      ⟨"a", "r", "d", [], [⟨"i-1"⟩], false⟩
      [⟨"a", "r", "d", [], [⟨"i-1"⟩], false⟩,
       ⟨"a", "r", "d", [], [⟨"i-1"⟩], false⟩]
      ⟨"d", [⟨"i-1"⟩], [], "r", "a"⟩ "a" "i-1" rfl).2.2.2 (by decide)

/-- C7: a batch whose filtered instance list is empty makes each
handler return its sentinel — `NotFound` for EC2, the
`errNoInstances` sentinel for Azure and GCP — without invoking the
installer and without emitting usage events; the consuming loops
classify the sentinel at debug level while real failures log at
error level, and the loop keeps processing later batches. -/
theorem no_new_instances_sentinel
    (ext : EC2Ext) (vext : VMExt) (nodes : List Node)
    (bE : EC2Instances) (bA : AzureInstances) (bG : GCPInstances)
    (restE : List EC2Instances) (msg : String)
    (hssm : ext.ssmClientErr = none) (hsi : ext.serverInfosErr = none)
    (hcli : vext.clientErr = none)
    (hE : (if !bE.rotation then filterExistingEC2Nodes nodes bE else bE).instances = [])
    (hA : (filterExistingAzureNodes nodes bA).instances = [])
    (hG : (filterExistingGCPNodes nodes bG).instances = []) :
    (handleEC2Instances ext nodes bE =
        ⟨none, [], some (.notFound "all fetched nodes already enrolled")⟩
      ∧ classifyEC2HandleErr (.notFound "all fetched nodes already enrolled") = .debug)
    ∧ (handleAzureInstances vext nodes bA = ⟨none, [], some .noInstances⟩
      ∧ classifyVMHandleErr .noInstances = .debug)
    ∧ (handleGCPInstances vext nodes bG = ⟨none, [], some .noInstances⟩
      ∧ classifyVMHandleErr .noInstances = .debug)
    ∧ (classifyEC2HandleErr (.installerErr msg) = .errorLog
      ∧ classifyEC2HandleErr (.clientErr msg) = .errorLog
      ∧ classifyVMHandleErr (.installerErr msg) = .errorLog
      ∧ classifyVMHandleErr (.clientErr msg) = .errorLog)
    ∧ (ec2DiscoveryLoop ext nodes (bE :: restE)).length = restE.length + 1 := by
  refine ⟨⟨?_, rfl⟩, ⟨?_, rfl⟩, ⟨?_, rfl⟩, ⟨rfl, rfl, rfl, rfl⟩, ?_⟩
  · have hE2 : (if bE.rotation = false then filterExistingEC2Nodes nodes bE else bE).instances
        = [] := by simpa using hE
    simp [handleEC2Instances, hssm, hsi, hE2]
  · simp [handleAzureInstances, hcli, hA]
  · simp [handleGCPInstances, hcli, hG]
  · simp [ec2DiscoveryLoop]

/-- Witness for C7: inventories containing exactly the discovered
EC2 instance, Azure VM, and GCP VM make every handler report its
no-new-instances sentinel. -/
theorem no_new_instances_sentinel_witness :
    (handleEC2Instances EC2Ext.ok
        [⟨[(awsAccountIDLabel, "a"), (awsInstanceIDLabel, "i1")], subKindOpenSSHNode, 0⟩,
         ⟨[(subscriptionIDLabel, "s"), (vmIDLabel, "v1")], "node", 0⟩,
         ⟨[(projectIDLabel, "p"), (zoneLabel, "z"), (nameLabel, "n1")], "node", 0⟩]
        ⟨"a", "r", "d", [], [⟨"i1"⟩], false⟩ =
      ⟨none, [], some (.notFound "all fetched nodes already enrolled")⟩)
    ∧ (handleAzureInstances VMExt.ok
        [⟨[(awsAccountIDLabel, "a"), (awsInstanceIDLabel, "i1")], subKindOpenSSHNode, 0⟩,
         ⟨[(subscriptionIDLabel, "s"), (vmIDLabel, "v1")], "node", 0⟩,
         ⟨[(projectIDLabel, "p"), (zoneLabel, "z"), (nameLabel, "n1")], "node", 0⟩]
        ⟨"s", "r", "rg", "sc", "addr", "cid", [], [⟨"vm", some "v1"⟩]⟩ =
      ⟨none, [], some .noInstances⟩)
    ∧ (handleGCPInstances VMExt.ok
        [⟨[(awsAccountIDLabel, "a"), (awsInstanceIDLabel, "i1")], subKindOpenSSHNode, 0⟩,
         ⟨[(subscriptionIDLabel, "s"), (vmIDLabel, "v1")], "node", 0⟩,
         ⟨[(projectIDLabel, "p"), (zoneLabel, "z"), (nameLabel, "n1")], "node", 0⟩]
        ⟨"p", "z", "sc", "addr", [], [⟨"n1", "z", "p"⟩]⟩ =
      ⟨none, [], some .noInstances⟩) := by
  have T := no_new_instances_sentinel EC2Ext.ok VMExt.ok
    [⟨[(awsAccountIDLabel, "a"), (awsInstanceIDLabel, "i1")], subKindOpenSSHNode, 0⟩,
     ⟨[(subscriptionIDLabel, "s"), (vmIDLabel, "v1")], "node", 0⟩,
     ⟨[(projectIDLabel, "p"), (zoneLabel, "z"), (nameLabel, "n1")], "node", 0⟩]
    ⟨"a", "r", "d", [], [⟨"i1"⟩], false⟩
    ⟨"s", "r", "rg", "sc", "addr", "cid", [], [⟨"vm", some "v1"⟩]⟩
    ⟨"p", "z", "sc", "addr", [], [⟨"n1", "z", "p"⟩]⟩
    [] "m" rfl rfl rfl (by decide) (by decide) (by decide)
  exact ⟨T.1.1, T.2.1.1, T.2.2.1.1⟩

end Discovery
